import Mathlib

/-!
Verification of the GEN_STEP station/equipment record keeper.

The development shallowly embeds the data-level behaviour of the Python
sources (`gen_station.py`, `utils.py`, `main.py`, `diagramme_flux.py`).
JSON values are modelled by the inductive type `J`; Python dicts loaded
from JSON are modelled as insertion-ordered association lists with
distinct keys (`List (String × J)`), which matches Python's
insertion-ordered `dict`/`OrderedDict`.  File input is turned into an
explicit argument (the parsed JSON value) and `datetime.now()` into an
explicit `now : String` argument.
-/

/-- A JSON value, as produced by `json.load`: strings, integers,
booleans, null, arrays and (insertion-ordered) objects.  Floats do not
occur in the data files handled here. -/
inductive J where
  | s    : String → J
  | n    : Int → J
  | b    : Bool → J
  | null : J
  | arr  : List J → J
  | obj  : List (String × J) → J

/-- Python `str.strip()`: drop whitespace from both ends.  (Written on
the character list so that closed terms reduce in the kernel.) -/
def pyStrip (s : String) : String :=
  String.mk (((s.data.dropWhile Char.isWhitespace).reverse.dropWhile Char.isWhitespace).reverse)

/-- Python truthiness of a JSON-shaped value (`if not data: ...`). -/
def pyTruthy : J → Bool
  | .s v   => v ≠ ""
  | .n v   => v ≠ 0
  | .b v   => v
  | .null  => false
  | .arr l => !l.isEmpty
  | .obj l => !l.isEmpty

/-- `d.get(k)` on a dict modelled as an association list. -/
def jLookup (fields : List (String × J)) (k : String) : Option J :=
  (fields.find? (fun p => p.1 = k)).map (·.2)

/-- `k in d` on a dict modelled as an association list. -/
def hasKey (fields : List (String × J)) (k : String) : Bool :=
  fields.any (fun p => p.1 = k)

/-- `d[k] = v` on a dict: replaces the value in place if the key exists
(keeping its position, as Python dicts do), otherwise appends the new
key at the end. -/
def pySet (fields : List (String × J)) (k : String) (v : J) : List (String × J) :=
  if hasKey fields k then fields.map (fun p => if p.1 = k then (p.1, v) else p)
  else fields ++ [(k, v)]

/-- `d[k] = v` on a string-valued `OrderedDict` (same in-place/append
semantics as `pySet`). -/
def odSet (m : List (String × String)) (k v : String) : List (String × String) :=
  if m.any (fun p => p.1 = k) then m.map (fun p => if p.1 = k then (p.1, v) else p)
  else m ++ [(k, v)]

/-- Append a key to an ordered key list unless it is already present
("first occurrence wins"). -/
def pushNew (l : List String) (k : String) : List String :=
  if l.any (fun a => a = k) then l else l ++ [k]

namespace GenStation

/-- One stage of `gen_station.get_ouvrages_procede` for the first three
stages (gen_station.py:135-153): when the stage value is a list, every
string item with non-blank strip is assigned
`etat_initial[item.strip()] = 'en_service'` (an `OrderedDict`
assignment, which keeps the first position of an existing key); any
other stage shape is silently skipped. -/
def addStage (m : List (String × String)) : J → List (String × String)
  | .arr items =>
    items.foldl (fun acc it =>
      match it with
      | .s v => if pyStrip v ≠ "" then odSet acc (pyStrip v) "en_service" else acc
      | _ => acc) m
  | _ => m

/-- One stage of `gen_station.get_ouvrages_procede` for the tertiary and
sludge stages (gen_station.py:156-167): same as `addStage` but with an
explicit `item.strip() not in etat_initial` guard. -/
def addStageIfAbsent (m : List (String × String)) : J → List (String × String)
  | .arr items =>
    items.foldl (fun acc it =>
      match it with
      | .s v =>
        if pyStrip v ≠ "" ∧ ¬ acc.any (fun p => p.1 = pyStrip v) then acc ++ [(pyStrip v, "en_service")]
        else acc
      | _ => acc) m
  | _ => m

/-- Body of `gen_station.get_ouvrages_procede` (gen_station.py:132-169)
once the process-type entry has been found and is a dict: visit the five
stages in the fixed priority order, reading `pretraitement`,
`traitement_primaire` and `traitement_secondaire` under `filiere_eau`,
and `traitement_tertiaire` and `filiere_boue` at top level, each
defaulting to `[]`. -/
def genBody (pdata : List (String × J)) : List (String × String) :=
  match (jLookup pdata "filiere_eau").getD (.obj []) with
  | .obj fe =>
    let m1 := addStage [] ((jLookup fe "pretraitement").getD (.arr []))
    let m2 := addStage m1 ((jLookup fe "traitement_primaire").getD (.arr []))
    let m3 := addStage m2 ((jLookup fe "traitement_secondaire").getD (.arr []))
    let m4 := addStageIfAbsent m3 ((jLookup pdata "traitement_tertiaire").getD (.arr []))
    addStageIfAbsent m4 ((jLookup pdata "filiere_boue").getD (.arr []))
  | _ => []

/-- `gen_station.get_ouvrages_procede(procedure_type, types_data)`
(gen_station.py:106-173).  Returns the ordered dict of equipment names
initialised to `en_service`; an empty/unknown process type, non-dict
catalog or non-dict entry yields the empty dict.  A non-dict
`filiere_eau` value makes `.get('pretraitement')` raise, which the
enclosing `try` turns into the empty dict (gen_station.py:171-173). -/
def get_ouvrages_procede (procedure_type : String) (types_data : J) : List (String × String) :=
  if procedure_type = "" then []
  else
    match types_data with
    | .obj entries =>
      match jLookup entries procedure_type with
      | some (.obj pdata) => genBody pdata
      | _ => []
    | _ => []

end GenStation

/-- Modelled from the spec (section 4.1): the canonical order is built by
concatenating the five stages' declared name lists in the fixed priority
order and keeping the first occurrence of every name.  Used as the
specification side of the refinement proof for `get_ouvrages_procede`. -/
def specCanonicalOrder (stages : List (List String)) : List String :=
  stages.flatten.foldl pushNew []

/-- Scenario A catalog: process type `boues_activees` with two stages. -/
def scenarioA_catalog : J :=
  .obj [("boues_activees", .obj [
    ("filiere_eau", .obj [
      ("pretraitement", .arr [.s "Dégrillage", .s "Dessablage/Dégraissage"]),
      ("traitement_secondaire", .arr [.s "Bassins d\x27aération", .s "Clarificateur"])])])]

/-- Find the first occurrence of `sep` in `l` and split there
(Python `str.split(sep, 1)` and the `in` substring test build on this). -/
def splitOnce (sep l : List Char) : Option (List Char × List Char) :=
  match (List.range (l.length + 1)).find? (fun i => sep.isPrefixOf (l.drop i)) with
  | some i => some (l.take i, l.drop (i + sep.length))
  | none => none

/-- Python `needle in hay` on strings (substring test). -/
def pyInStr (needle hay : String) : Bool :=
  (splitOnce needle.data hay.data).isSome

/-- Python `repr` of a JSON-shaped value (enough for the value shapes
that occur here). -/
def pyRepr : J → String
  | .s t => "\x27" ++ t ++ "\x27"
  | .n i => toString i
  | .b true => "True"
  | .b false => "False"
  | .null => "None"
  | .arr l => "[" ++ String.intercalate ", " (l.attach.map (fun x => pyRepr x.1)) ++ "]"
  | .obj l => "\x7b" ++
      String.intercalate ", "
        (l.attach.map (fun x => "\x27" ++ x.1.1 ++ "\x27: " ++ pyRepr x.1.2)) ++ "\x7d"
decreasing_by
  · have := List.sizeOf_lt_of_mem x.2
    simp only [J.arr.sizeOf_spec]
    omega
  · have h1 := List.sizeOf_lt_of_mem x.2
    have h2 : sizeOf x.1.2 < sizeOf x.1 := by
      rcases x with ⟨⟨a, b⟩, hm⟩
      simp
    simp only [J.obj.sizeOf_spec]
    omega

/-- Python `str()` of a JSON-shaped value (`str` of a string is itself,
everything else matches its `repr` for these value shapes). -/
def pyStr : J → String
  | .s t => t
  | v => pyRepr v

/-- `key in container` for the shapes `procede_info` can take:
dict-key membership, list membership, substring test; membership on a
number/bool/None raises `TypeError` (modelled as `.error`). -/
def pyContainsKey (v : J) (k : String) : Except Unit Bool :=
  match v with
  | .obj f => .ok (hasKey f k)
  | .arr l => .ok (l.any (fun e => match e with | .s t => t = k | _ => false))
  | .s t => .ok (pyInStr k t)
  | _ => .error ()

/-- The combined check-and-index pattern
`'filiere_eau' in procede_info and <stage> in procede_info['filiere_eau']`
followed by `procede_info['filiere_eau'][<stage>]` (utils.py:440-453,
main.py:452-479).  `none` means the guard was false and the stage is
skipped; `.error` means Python raised (string-indexing a list/str, or
`in` on a number/bool/None). -/
def feStage (fe : Option J) (k : String) : Except Unit (Option J) :=
  match fe with
  | none => .ok none
  | some (.obj f) => .ok (jLookup f k)
  | some (.arr l) =>
      if l.any (fun e => match e with | .s t => t = k | _ => false) then .error ()
      else .ok none
  | some (.s t) => if pyInStr k t then .error () else .ok none
  | some _ => .error ()

namespace Utils

/-- Model of `normalize` (utils.py:409-411): lower-case, then
NFD-decompose and drop combining marks.  Modelled character-wise for the
Latin characters occurring in this repository's data (for which NFD
yields base letter + combining accents); other characters are
lower-cased (ASCII). -/
def normalizeChar (c : Char) : Char :=
  match c with
  | 'à' | 'â' | 'ä' | 'À' | 'Â' | 'Ä' => 'a'
  | 'é' | 'è' | 'ê' | 'ë' | 'É' | 'È' | 'Ê' | 'Ë' => 'e'
  | 'î' | 'ï' | 'Î' | 'Ï' => 'i'
  | 'ô' | 'ö' | 'Ô' | 'Ö' => 'o'
  | 'ù' | 'û' | 'ü' | 'Ù' | 'Û' | 'Ü' => 'u'
  | 'ç' | 'Ç' => 'c'
  | _ => c.toLower

/-- `normalize(s)` (utils.py:409-411). -/
def normalize (s : String) : String :=
  String.mk (s.data.map normalizeChar)

/-- `ajouter_ouvrages(source)` (utils.py:431-437): a list source adds
every string item with non-blank strip — storing the *unstripped* name —
to the ordered dict; any non-list source reaches
`elif isinstance(ouvrage, str)`, which reads the unassigned local
variable `ouvrage` and raises `UnboundLocalError` (modelled `.error`). -/
def ajouter_ouvrages (acc : List (String × String)) : J → Except Unit (List (String × String))
  | .arr items =>
    .ok (items.foldl (fun a it =>
      match it with
      | .s v => if pyStrip v ≠ "" then odSet a v "en_service" else a
      | _ => a) acc)
  | _ => .error ()

/-- Apply `ajouter_ouvrages` when the stage guard found a value, keep
the accumulator when the stage is absent. -/
def ajouterOpt (acc : List (String × String)) : Option J → Except Unit (List (String × String))
  | none => .ok acc
  | some src => ajouter_ouvrages acc src

/-- Stage sequence of `utils.get_ouvrages_procede` (utils.py:439-457):
the first four stages live under `filiere_eau` (including
`traitement_tertiaire`), `filiere_boue` is top-level. -/
def utilsBody (p : List (String × J)) : Except Unit (List (String × String)) := do
  let fe := jLookup p "filiere_eau"
  let s1 ← feStage fe "pretraitement"
  let m1 ← ajouterOpt [] s1
  let s2 ← feStage fe "traitement_primaire"
  let m2 ← ajouterOpt m1 s2
  let s3 ← feStage fe "traitement_secondaire"
  let m3 ← ajouterOpt m2 s3
  let s4 ← feStage fe "traitement_tertiaire"
  let m4 ← ajouterOpt m3 s4
  ajouterOpt m4 (jLookup p "filiere_boue")

/-- `utils.get_ouvrages_procede(type_procede)` (utils.py:384-467), with
the parsed `data/types.json` as an explicit argument.  The catalog key
is matched case- and accent-insensitively through `normalize`
(utils.py:413-418); a miss, a falsy matched key, a non-dict entry
(whose `.keys()` debug print raises) or any exception in the stage loop
yields `None` via the enclosing `try` (utils.py:462-467). -/
def get_ouvrages_procede (type_procede : String) (types_data : J) :
    Option (List (String × String)) :=
  match types_data with
  | .obj entries =>
    match entries.find? (fun p => normalize p.1 = normalize type_procede) with
    | none => none
    | some (key, pinfo) =>
      if key = "" then none
      else
        match pinfo with
        | .obj p =>
          match utilsBody p with
          | .ok m => some m
          | .error _ => none
        | _ => none
  | _ => none

/-- Model of Python `dict(x)` under `try/except (TypeError, ValueError)`
(utils.py:211-215): a list of two-element `[key, value]` sequences (or
two-character strings) converts; anything else raises and yields `{}`.
Keys that are not strings cannot occur in data read back from this
program's JSON stores and are modelled as the failure branch. -/
def dictConv (v : J) : J :=
  match v with
  | .arr l =>
    let pairOf : J → Option (String × J) := fun e =>
      match e with
      | .arr [.s k, w] => some (k, w)
      | .s w => match w.data with
                | [k, c2] => some (String.mk [k], .s (String.mk [c2]))
                | _ => none
      | _ => none
    match l.mapM pairOf with
    | some ps => .obj (ps.foldl (fun acc p => pySet acc p.1 p.2) [])
    | none => .obj []
  | _ => .obj []

/-- Cleanup pass of `charger_etats_station` (utils.py:202-223) on one
snapshot: non-dict items are left untouched; a dict gets a dict-valued
`etat_ouvrages` (converting or resetting a non-dict value, adding `{}`
when absent), a `station_id` (the store key) when absent, and a
`date_maj` synthesized from `date` or from the current time when
absent. -/
def cleanupEtat (now sid : String) (etat : J) : J :=
  match etat with
  | .obj fields =>
    let f1 :=
      match jLookup fields "etat_ouvrages" with
      | none => pySet fields "etat_ouvrages" (.obj [])
      | some (.obj _) => fields
      | some v => pySet fields "etat_ouvrages" (dictConv v)
    let f2 := if hasKey f1 "station_id" then f1 else pySet f1 "station_id" (.s sid)
    let f3 :=
      if hasKey f2 "date_maj" then f2
      else pySet f2 "date_maj" ((jLookup f2 "date").getD (.s now))
    .obj f3
  | x => x

/-- `utils.charger_etats_station()` (utils.py:159-232), with the parsed
`data/etat_station.json` as an explicit argument and `datetime.now()`
as `now`.  A non-dict top level (including the flat-list legacy shape)
yields the empty store.  For each station key: a list value collects its
dict items (flattening the nested `{station_id: [...]}` wrapper shape)
and is kept when non-empty; a dict value is kept as a one-snapshot list
when it carries one of `etat_ouvrages`/`date`/`date_maj`; everything
else is dropped.  The cleanup pass then runs on every kept snapshot. -/
def charger_etats_station (now : String) (etats_data : J) : List (String × List J) :=
  match etats_data with
  | .obj entries =>
    let result := entries.foldl (fun acc sd =>
      if ¬ pyTruthy sd.2 then acc
      else
        match sd.2 with
        | .arr items =>
          let etats_list := items.foldl (fun el item =>
            match item with
            | .obj fields =>
              match jLookup fields sd.1 with
              | some (.arr inner) => el ++ inner
              | _ => el ++ [item]
            | _ => el) []
          if etats_list.isEmpty then acc else acc ++ [(sd.1, etats_list)]
        | .obj fields =>
          if hasKey fields "etat_ouvrages" ∨ hasKey fields "date" ∨ hasKey fields "date_maj"
          then acc ++ [(sd.1, [sd.2])]
          else acc
        | _ => acc) []
    result.map (fun se => (se.1, se.2.map (cleanupEtat now se.1)))
  | _ => []

/-- First cleaning loop of `sauvegarder_etats_station` (utils.py:257-305)
on one dict snapshot.  `defaults` is the result of
`get_ouvrages_procede(station['type_procede'])` for the station being
saved: `none` models a missing station / missing type / `None` result,
`some []` a falsy empty dict; both lead to an empty `etat_ouvrages`
replacement. -/
def nettoyer_etat_1 (defaults : Option (List (String × J))) (sid now : String)
    (etat : List (String × J)) : List (String × J) :=
  let etat_propre := ["station_id", "date", "date_maj", "etat_ouvrages"].foldl
    (fun acc c =>
      match jLookup etat c with
      | some v => acc ++ [(c, v)]
      | none => acc) []
  let needDefault :=
    match jLookup etat_propre "etat_ouvrages" with
    | none => true
    | some v => ¬ pyTruthy v
  let etat_propre :=
    if needDefault then
      match defaults with
      | some d =>
        if d.isEmpty then pySet etat_propre "etat_ouvrages" (.obj [])
        else
          let nouveaux :=
            match jLookup etat "etat_ouvrages" with
            | some (.obj orig) =>
              orig.foldl (fun acc kv =>
                if hasKey acc kv.1 then pySet acc kv.1 kv.2 else acc) d
            | _ => d
          pySet etat_propre "etat_ouvrages" (.obj nouveaux)
      | none => pySet etat_propre "etat_ouvrages" (.obj [])
    else etat_propre
  let etat_propre :=
    if hasKey etat_propre "station_id" then etat_propre
    else pySet etat_propre "station_id" (.s sid)
  let etat_propre :=
    if hasKey etat_propre "date_maj" then etat_propre
    else pySet etat_propre "date_maj" (.s now)
  etat_propre.filter (fun p => p.1 ≠ "date")

/-- Second cleaning loop of `sauvegarder_etats_station`
(utils.py:317-341) on one dict snapshot: rebuild it with exactly the
fields `station_id` (coerced through `str()`), `date_maj` (defaulting
to now) and `etat_ouvrages` (keeping only string-keyed, string-valued
entries); then the `str()` pass (utils.py:337-339) converts an
int/float/bool `date_maj` to its string form. -/
def nettoyer_etat_2 (sid now : String) (etat : List (String × J)) : J :=
  let station_id := pyStr ((jLookup etat "station_id").getD (.s sid))
  let date_maj := (jLookup etat "date_maj").getD (.s now)
  let eo : List (String × J) :=
    match jLookup etat "etat_ouvrages" with
    | some (.obj m) => m.filter (fun p => match p.2 with | .s _ => true | _ => false)
    | _ => []
  let date_maj :=
    match date_maj with
    | .n i => .s (toString i)
    | .b bv => .s (if bv then "True" else "False")
    | v => v
  .obj [("station_id", .s station_id), ("date_maj", date_maj), ("etat_ouvrages", .obj eo)]

/-- Data phase of `sauvegarder_etats_station` (utils.py:245-344): wrap a
non-list argument (using truthiness), run both cleaning loops, dropping
non-dict snapshots. -/
def sauvegarder_clean (defaults : Option (List (String × J))) (sid now : String)
    (etats_station : J) : List J :=
  let lst : List J :=
    match etats_station with
    | .arr l => l
    | x => if pyTruthy x then [x] else []
  let etats_a_sauvegarder := lst.foldl (fun acc e =>
    match e with
    | .obj fields => acc ++ [nettoyer_etat_1 defaults sid now fields]
    | _ => acc) []
  etats_a_sauvegarder.foldl (fun acc e => acc ++ [nettoyer_etat_2 sid now e]) []

/-- On-disk state seen by the persistence step of
`sauvegarder_etats_station`: the target file `data/etat_station.json`
and the temporary file, each either absent or holding a string of
serialized content. -/
structure FS where
  target : Option String
  temp   : Option String

/-- Environment oracle for one run of the persistence step: whether the
temp-file write raises (and what partial content it leaves), whether
`shutil.move` raises, and whether the cleanup `os.remove` succeeds. -/
structure SaveOracle where
  writeOk : Bool
  writeLeftover : Option String
  moveOk : Bool
  removeOk : Bool

/-- The `try: os.remove(temp_file) except: pass` cleanup
(utils.py:372-377). -/
def tryRemoveTemp (o : SaveOracle) (fs : FS) : FS :=
  if o.removeOk then { fs with temp := none } else fs

/-- Persistence step of `sauvegarder_etats_station` (utils.py:349-378):
write the serialized store to a temp file in the `data` directory,
verify it exists and is non-empty (raising `IOError` otherwise), then
replace the target in one `shutil.move` (a same-directory atomic
rename).  Any failure runs the temp cleanup and returns `False`; only
the final successful move changes the target. -/
def sauvegarder_persist (o : SaveOracle) (serialized : String) (fs : FS) : Bool × FS :=
  if ¬ o.writeOk then
    (false, tryRemoveTemp o { fs with temp := o.writeLeftover })
  else
    let fs1 : FS := { fs with temp := some serialized }
    if serialized.length = 0 then (false, tryRemoveTemp o fs1)
    else if ¬ o.moveOk then (false, tryRemoveTemp o fs1)
    else (true, { target := some serialized, temp := none })

end Utils

namespace MainPy

/-- One stage of `main.get_ouvrages_procede` (main.py:452-499): a
list-valued stage adds every string item with non-blank strip, storing
the unstripped name; a string-valued stage with non-blank strip is added
as a single name; any other shape (including the legacy dict shape) is
silently skipped. -/
def mainStage (src : Option J) (m : List (String × String)) : List (String × String) :=
  match src with
  | some (.arr items) =>
    items.foldl (fun acc it =>
      match it with
      | .s v => if pyStrip v ≠ "" then odSet acc v "en_service" else acc
      | _ => acc) m
  | some (.s v) => if pyStrip v ≠ "" then odSet m v "en_service" else m
  | _ => m

/-- Stage sequence of `main.get_ouvrages_procede` (main.py:451-499): the
first three stages live under `filiere_eau`, `traitement_tertiaire` and
`filiere_boue` are top-level. -/
def mainBody (p : List (String × J)) : Except Unit (List (String × String)) := do
  let fe := jLookup p "filiere_eau"
  let s1 ← feStage fe "pretraitement"
  let m1 := mainStage s1 []
  let s2 ← feStage fe "traitement_primaire"
  let m2 := mainStage s2 m1
  let s3 ← feStage fe "traitement_secondaire"
  let m3 := mainStage s3 m2
  let m4 := mainStage (jLookup p "traitement_tertiaire") m3
  return mainStage (jLookup p "filiere_boue") m4

/-- Behaviour of `main.get_ouvrages_procede` on a truthy non-dict
catalog entry: the five `'...' in procede_info` membership tests do not
raise on a list or string and are normally false, yielding an empty
ordered dict; a hit makes the subsequent string-indexing raise
(→ `None`), and membership on a number/bool raises directly (→ `None`).
-/
def mainNonDictEntry (pinfo : J) : Option (List (String × String)) :=
  match pinfo with
  | .arr l =>
    if l.any (fun e => match e with
        | .s t => t = "filiere_eau" ∨ t = "traitement_tertiaire" ∨ t = "filiere_boue"
        | _ => false) then none
    else some []
  | .s t =>
    if pyInStr "filiere_eau" t ∨ pyInStr "traitement_tertiaire" t ∨ pyInStr "filiere_boue" t
    then none
    else some []
  | _ => none

/-- `main.get_ouvrages_procede(type_procede)` (main.py:427-506), with
the parsed `data/types.json` as an explicit argument.  The key is looked
up *exactly* (`types_data.get(type_procede)`, main.py:442); a falsy
entry yields `None`; exceptions are caught and yield `None`
(main.py:503-506). -/
def get_ouvrages_procede (type_procede : String) (types_data : J) :
    Option (List (String × String)) :=
  match types_data with
  | .obj entries =>
    match jLookup entries type_procede with
    | some (.obj p) =>
      if (List.isEmpty p : Bool) then none   -- `if not procede_info: return None`
      else
        match mainBody p with
        | .ok m => some m
        | .error _ => none
    | some pinfo => if pyTruthy pinfo then mainNonDictEntry pinfo else none
    | none => none
  | _ => none

/-- Number of parameters of `utils.sauvegarder_etats_station`
(utils.py:234: `def sauvegarder_etats_station(etats_station, station_id)`),
both required. -/
def sauvegarder_param_count : Nat := 2

/-- Number of positional arguments supplied at the call site
main.py:225: `sauvegarder_etats_station(etats_actuels)`. -/
def update_save_call_args : Nat := 1

/-- `main.update_ouvrage_state_new` (main.py:166-230), data part, after
the user has produced the full new state map `nouveaux_etats`: build the
new snapshot `{'etat_ouvrages': ..., 'date_maj': now}` (main.py:213-216),
append it to the station's history in the in-memory store
(main.py:218-222), then call the save routine.  The call at main.py:225
passes one positional argument while utils.py:234 declares two required
parameters, so Python raises `TypeError` at the call, before any write. -/
def update_ouvrage_state_new (etats_actuels : List (String × List J)) (sid now : String)
    (nouveaux_etats : List (String × J)) : Except String (List (String × List J)) :=
  let etats_station := ((etats_actuels.find? (fun p => p.1 = sid)).map (·.2)).getD []
  let nouvelle_entree : J := .obj [("etat_ouvrages", .obj nouveaux_etats), ("date_maj", .s now)]
  let updated :=
    if etats_actuels.any (fun p => p.1 = sid) then
      etats_actuels.map (fun p => if p.1 = sid then (p.1, etats_station ++ [nouvelle_entree]) else p)
    else etats_actuels ++ [(sid, etats_station ++ [nouvelle_entree])]
  if update_save_call_args < sauvegarder_param_count then
    .error "TypeError: sauvegarder_etats_station() missing 1 required positional argument: station_id"
  else .ok updated

/-- Display/edit ordering of `main.afficher_et_modifier_etats`
(main.py:529-544): when a canonical order is available and truthy, list
first the catalog equipment that are present in the snapshot, in
canonical order, then the remaining snapshot keys in their original
order; if that list comes out empty (no canonical order, or empty
intersection and no keys) fall back to the snapshot's own key order.
`ordre = none` models `get_ouvrages_procede` returning `None`. -/
def ouvrages_a_afficher (ordre : Option (List (String × String)))
    (etats : List (String × String)) : List String :=
  let fromOrdre : List String :=
    match ordre with
    | some o =>
      if o.isEmpty then []
      else
        let first := (o.map Prod.fst).filter (fun n => etats.any (fun p => p.1 = n))
        first ++ (etats.map Prod.fst).filter (fun k => ¬ first.any (fun a => a = k))
    | none => []
  if fromOrdre.isEmpty then etats.map Prod.fst else fromOrdre

end MainPy


namespace Diagramme

/-- A snapshot as read by `get_station_etat` (diagramme_flux.py:1045),
restricted to the field shapes this program persists: optional string
`date_maj` and `date` fields and a string-to-string equipment map. -/
structure Etat where
  date_maj : Option String
  date : Option String
  etat_ouvrages : List (String × String)
deriving DecidableEq

/-- The sort key `x.get('date_maj', x.get('date', ''))`
(diagramme_flux.py:1076). -/
def snapKey (e : Etat) : String := e.date_maj.getD (e.date.getD "")

/-- Python string `<`: lexicographic comparison by code point. -/
def pyLexLt : List Char → List Char → Bool
  | [], [] => false
  | [], _ :: _ => true
  | _ :: _, [] => false
  | a :: as, b :: bs =>
    if a.toNat < b.toNat then true
    else if b.toNat < a.toNat then false
    else pyLexLt as bs

/-- Python `a < b` on strings. -/
def pyStrLt (a b : String) : Bool := pyLexLt a.data b.data

/-- Insert into a descending-sorted list: the element goes after every
element with a strictly greater key and after no element with a smaller
or equal key.  (Auxiliary for the model of Python's stable
`list.sort(key=..., reverse=True)`; since the inserted element
originally preceded the list it is inserted into, placing it before
equal keys preserves the original order among ties.) -/
def insertDescBy (key : α → String) (x : α) : List α → List α
  | [] => [x]
  | y :: ys =>
    if pyStrLt (key x) (key y) then y :: insertDescBy key x ys else x :: y :: ys

/-- Python `list.sort(key=..., reverse=True)`: a stable descending sort
(elements with equal keys keep their original relative order). -/
def sortDescBy (key : α → String) : List α → List α
  | [] => []
  | x :: xs => insertDescBy key x (sortDescBy key xs)

/-- `get_station_etat` (diagramme_flux.py:1045-1083) for a station whose
entry in the store is `etats_station` (absent station modelled by `[]`):
a falsy (empty) history yields `(None, None)`; otherwise sort stably by
descending `date_maj` (with `date` fallback) and return the head's
equipment map and `date_maj`. -/
def get_station_etat (etats_station : List Etat) :
    Option (List (String × String) × Option String) :=
  if etats_station.isEmpty then none
  else
    match sortDescBy snapKey etats_station with
    | [] => none
    | d :: _ => some (d.etat_ouvrages, d.date_maj)

/-- Python `max(xs, key=...)` starting from `x`: the *first* element
attaining the maximal key (a strictly greater key replaces the
accumulator).  This is also what `max(etats_station, key=...)` at
main.py:190 computes. -/
def firstMaxBy (key : α → String) (x : α) (xs : List α) : α :=
  xs.foldl (fun acc y => if pyStrLt (key acc) (key y) then y else acc) x

/-- State merge of `generer_diagramme_station`
(diagramme_flux.py:1226-1228): start from the canonical dict (all
`en_service`) and overwrite, in place, the state of every snapshot
equipment that is a key of the canonical dict; snapshot names unknown to
the catalog are not added. -/
def mergeEtats (etats_ouvrages : List (String × String))
    (etat_ouvrages : List (String × String)) : List (String × String) :=
  etat_ouvrages.foldl (fun acc p =>
    if acc.any (fun q => q.1 = p.1) then odSet acc p.1 p.2 else acc) etats_ouvrages

/-- The string branch of `parser_ouvrages` (diagramme_flux.py:158-174):
an item containing `" - "` has an optional leading `"N. "` (digit first
character and a `". "` occurrence) removed, and is then split once on
`" - "` into stripped name and state. -/
def parseString (i : Nat) (t : String) : Option (List (String × J)) :=
  match splitOnce (" - ").data t.data with
  | none => none
  | some _ =>
    let ligne : List Char :=
      if ((t.data.head?.map Char.isDigit).getD false ∧ (splitOnce (". ").data t.data).isSome)
      then (((splitOnce (". ").data t.data).map Prod.snd).getD t.data)
      else t.data
    match splitOnce (" - ").data ligne with
    | some ne =>
      some [("id", .n (Int.ofNat (i + 1))), ("nom", .s (pyStrip (String.mk ne.1))),
            ("etat", .s (pyStrip (String.mk ne.2)))]
    | none => none

/-- One iteration of the `parser_ouvrages` loop
(diagramme_flux.py:148-175) on the `(index, item)` pair: a dict item
gets an `id` when absent and is kept only when it carries both `nom`
and `etat`; a string item goes through `parseString`; every other item
is dropped. -/
def parseItem (ia : Nat × J) : Option (List (String × J)) :=
  match ia.2 with
  | .obj fields =>
    let fields := if hasKey fields "id" then fields else pySet fields "id" (.n (Int.ofNat (ia.1 + 1)))
    if hasKey fields "nom" ∧ hasKey fields "etat" then some fields else none
  | .s t => parseString ia.1 t
  | _ => none

/-- `parser_ouvrages` (diagramme_flux.py:135-175): iterate the
enumerated input, appending each successfully parsed record (the
append-or-skip loop is a `filterMap`). -/
def parser_ouvrages (liste : List J) : List (List (String × J)) :=
  liste.enum.filterMap parseItem

/-- The name-to-stage lookup table of `classer_par_filiere`
(diagramme_flux.py:203-239). -/
def correspondance_ouvrages : List (String × String) := [
  ("Dégrillage", "pretraitement"), ("Dégrillage fin", "pretraitement"),
  ("Dessablage/Dégraissage", "pretraitement"),
  ("Décanteur primaire", "traitement_primaire"), ("Décanteur lamellaire", "traitement_primaire"),
  ("Bassins d\x27aération", "traitement_secondaire"),
  ("Bassins à boues activées", "traitement_secondaire"),
  ("Bassins plantés de roseaux", "traitement_secondaire"),
  ("Lagune aérée", "traitement_secondaire"),
  ("Clarificateur", "traitement_secondaire"), ("Décanteur secondaire", "traitement_secondaire"),
  ("Filtration sur sable", "traitement_tertiaire"), ("Désinfection UV", "traitement_tertiaire"),
  ("Épaississement des boues", "traitement_boues"),
  ("Épaississement gravitaire", "traitement_boues"),
  ("Déshydratation mécanique", "traitement_boues"), ("Lits de séchage", "traitement_boues"),
  ("Séchage naturel sur lit de séchage", "traitement_boues"),
  ("Stockage", "stockage"), ("Valorisation", "valorisation"), ("Épandage", "epandage"),
  ("Mise en décharge", "mise_en_decharge"), ("Incinération", "incineration"),
  ("Rejet", "rejet")]

/-- The sludge-type tag table (diagramme_flux.py:242-245). -/
def type_boues : List (String × String) :=
  [("Décanteur primaire", "boues_primaires"), ("Décanteur secondaire", "boues_secondaires")]

/-- The fixed vertical order of the stage rows (diagramme_flux.py:278-291,
same keys in the same order as the `filieres` dict literal). -/
def ordre_filieres : List String :=
  ["pretraitement", "traitement_primaire", "traitement_secondaire", "traitement_tertiaire",
   "rejet", "traitement_boues", "stockage", "valorisation", "epandage", "mise_en_decharge",
   "incineration", "autre"]

/-- Lookup in a string-to-string table. -/
def assocFind (tbl : List (String × String)) (k : String) : Option String :=
  (tbl.find? (fun p => p.1 = k)).map (·.2)

/-- Classify one parsed record (diagramme_flux.py:247-261): a string
name is looked up in the table (tagging decanters with their
sludge type); unknown and non-string hashable names fall into `autre`;
an unhashable name (list/dict) makes `nom in correspondance_ouvrages`
raise `TypeError` (modelled `.error`; a record without `nom` cannot come
out of the parser, and `ouvrage['nom']` would raise `KeyError`). -/
def classifyOne (fields : List (String × J)) : Except Unit (String × List (String × J)) :=
  match jLookup fields "nom" with
  | some (.s nom) =>
    match assocFind correspondance_ouvrages nom with
    | some filiere =>
      let fields :=
        match assocFind type_boues nom with
        | some tb => pySet fields "type" (.s tb)
        | none => fields
      .ok (filiere, fields)
    | none => .ok ("autre", fields)
  | some (.n _) => .ok ("autre", fields)
  | some (.b _) => .ok ("autre", fields)
  | some .null => .ok ("autre", fields)
  | some _ => .error ()
  | none => .error ()

/-- `classer_par_filiere` (diagramme_flux.py:177-263): distribute the
records over the fixed buckets, keeping arrival order within each
bucket. -/
def classer_par_filiere (ouvrages : List (List (String × J))) :
    Except Unit (List (String × List (List (String × J)))) := do
  let classified ← ouvrages.mapM classifyOne
  return ordre_filieres.map (fun f => (f, (classified.filter (fun c => c.1 = f)).map Prod.snd))

/-- A positioned block, as produced by `calculer_positions`
(diagramme_flux.py:311-320).  Coordinates are modelled as integers in
*tenths* of the Python float unit: every constant involved
(`largeur_bloc = 6.0`, `hauteur_bloc = 1.8`, `espacement = 2.0`,
`marge_gauche = 2.0`, `espacement_lignes = 3.0`, the `1.0` margins and
the default bounds) is an exact decimal with one fractional digit, so
the scaling is exact and order/equality of coordinates is preserved. -/
structure Bloc where
  fields : List (String × J)
  x : Int
  y : Int
  largeur : Int
  hauteur : Int
  filiere : String

/-- `calculer_positions` (diagramme_flux.py:265-341): iterate the rows
in the fixed order, skipping empty ones; within a row place blocks
left-to-right starting at `marge_gauche` (20 tenths), advancing by
`largeur_bloc + espacement` (60 + 20) per block; each placed row moves
`y` down by `hauteur_bloc + espacement_lignes` (18 + 30). -/
def calculer_positions (filieres : List (String × List (List (String × J)))) : List Bloc :=
  (filieres.foldl (fun st f =>
    if f.2.isEmpty then st
    else
      let row := (f.2.foldl (fun (rs : List Bloc × Int) r =>
        (rs.1 ++ [{ fields := r, x := rs.2, y := st.2,
                    largeur := 60, hauteur := 18, filiere := f.1 : Bloc }],
         rs.2 + (60 + 20))) ([], 20)).1
      (st.1 ++ row, st.2 - (18 + 30))) (([], 0) : List Bloc × Int)).1

/-- The canvas-bounds computation of `dessiner_diagramme`
(diagramme_flux.py:698-712), in tenths: with no placed block the fixed
default bounds `(0, 16, -16, 2)` (scaled: 0, 160, -160, 20); otherwise
min/max of the block coordinates with `1.0` (10) margins.  (Only the
bounds computation of `dessiner_diagramme` is modelled; the
rectangle/arrow rendering is delegated to matplotlib and is outside the
layout scope.) -/
def dessiner_bounds (ouvrages_positionnes : List Bloc) : Int × Int × Int × Int :=
  match ouvrages_positionnes with
  | [] => (0, 160, -160, 20)
  | b :: bs =>
    let xmin := bs.foldl (fun a c => if c.x < a then c.x else a) b.x
    let xmax := bs.foldl (fun a c => if a < c.x then c.x else a) b.x
    let ymin := bs.foldl (fun a c => if c.y < a then c.y else a) b.y
    let ymax := bs.foldl (fun a c => if a < c.y then c.y else a) b.y
    (xmin - 10, xmax + 60 + 10, ymin - 10, ymax + 18 + 10)

/-- The layout pipeline `parser_ouvrages → classer_par_filiere →
calculer_positions` as composed in `generer_diagramme`
(diagramme_flux.py:652-655) and `generer_diagramme_station`
(diagramme_flux.py:1280-1282). -/
def pipeline (liste : List J) : Except Unit (List Bloc) := do
  let f ← classer_par_filiere (parser_ouvrages liste)
  return calculer_positions f

end Diagramme

section Lemmas

/-- `foldl` with unconditional append builds `init ++ map`. -/
theorem foldl_append_map (l : List α) (g : α → β) (init : List β) :
    l.foldl (fun acc e => acc ++ [g e]) init = init ++ l.map g := by
  induction l generalizing init with
  | nil => simp
  | cons a rest ih => simp [ih, List.append_assoc]

/-- `foldl` with conditional append builds `init ++ filterMap`. -/
theorem foldl_append_filterMap (l : List α) (g : α → Option β) (init : List β) :
    l.foldl (fun acc e => match g e with | some b => acc ++ [b] | none => acc) init
      = init ++ l.filterMap g := by
  induction l generalizing init with
  | nil => simp
  | cons a rest ih =>
    cases hg : g a <;> simp [hg, ih, List.append_assoc]

theorem hasKey_eq_isSome (f : List (String × J)) (k : String) :
    hasKey f k = (jLookup f k).isSome := by
  induction f with
  | nil => rfl
  | cons p ps ih =>
    by_cases hp : p.1 = k
    · simp [hasKey, jLookup, List.find?_cons_of_pos, hp]
    · simp only [hasKey, jLookup, List.any_cons] at *
      rw [List.find?_cons_of_neg _ (by simpa using hp)]
      simp [hp, ih]

theorem jLookup_replace_self (f : List (String × J)) (k : String) (v : J)
    (h : hasKey f k = true) :
    jLookup (f.map (fun p => if p.1 = k then (p.1, v) else p)) k = some v := by
  induction f with
  | nil => simp [hasKey] at h
  | cons p ps ih =>
    by_cases hp : p.1 = k
    · simp only [List.map_cons, if_pos hp, jLookup]
      rw [List.find?_cons_of_pos _ (by simpa using hp)]
      rfl
    · have h' : hasKey ps k = true := by
        simp only [hasKey, List.any_cons, hp, decide_eq_true_eq] at h ⊢
        simpa using h
      simp only [List.map_cons, if_neg hp, jLookup] at *
      rw [List.find?_cons_of_neg _ (by simpa using hp)]
      exact ih h'

theorem jLookup_replace_ne (f : List (String × J)) (k : String) (v : J) (k' : String)
    (h : k' ≠ k) :
    jLookup (f.map (fun p => if p.1 = k then (p.1, v) else p)) k' = jLookup f k' := by
  induction f with
  | nil => rfl
  | cons p ps ih =>
    by_cases hp : p.1 = k
    · have hne : ¬ p.1 = k' := by
        intro hc
        exact h (by rw [← hc, hp])
      simp only [List.map_cons, if_pos hp, jLookup] at *
      rw [List.find?_cons_of_neg _ (by simpa using (hp ▸ Ne.symm h : ¬ p.1 = k')),
          List.find?_cons_of_neg _ (by simpa using hne)]
      exact ih
    · by_cases hpk : p.1 = k'
      · simp only [List.map_cons, if_neg hp, jLookup]
        rw [List.find?_cons_of_pos _ (by simpa using hpk),
            List.find?_cons_of_pos _ (by simpa using hpk)]
      · simp only [List.map_cons, if_neg hp, jLookup] at *
        rw [List.find?_cons_of_neg _ (by simpa using hpk),
            List.find?_cons_of_neg _ (by simpa using hpk)]
        exact ih

theorem jLookup_append_right (f : List (String × J)) (k : String) (v : J)
    (h : hasKey f k = false) :
    jLookup (f ++ [(k, v)]) k = some v := by
  have hnone : f.find? (fun p => p.1 = k) = none := by
    rw [List.find?_eq_none]
    intro p hp
    simp only [decide_eq_true_eq]
    intro hc
    have : hasKey f k = true := by
      simp only [hasKey, List.any_eq_true]
      exact ⟨p, hp, by simpa using hc⟩
    simp [this] at h
  simp only [jLookup, List.find?_append, hnone, Option.none_or]
  rw [List.find?_cons_of_pos _ (by simp)]
  rfl

theorem jLookup_append_ne (f : List (String × J)) (k : String) (v : J) (k' : String)
    (h : k' ≠ k) :
    jLookup (f ++ [(k, v)]) k' = jLookup f k' := by
  simp only [jLookup, List.find?_append]
  rw [List.find?_cons_of_neg _ (by simpa using (Ne.symm h))]
  cases hf : f.find? (fun p => p.1 = k') <;> simp

theorem jLookup_pySet (f : List (String × J)) (k : String) (v : J) (k' : String) :
    jLookup (pySet f k v) k' = if k' = k then some v else jLookup f k' := by
  unfold pySet
  by_cases h : hasKey f k
  · simp only [h, if_true]
    by_cases hk : k' = k
    · subst hk; simp [jLookup_replace_self f k' v h]
    · simp [hk, jLookup_replace_ne f k v k' hk]
  · simp only [h, Bool.false_eq_true, if_false]
    by_cases hk : k' = k
    · subst hk
      simp [jLookup_append_right f k' v (by simpa using h)]
    · simp [hk, jLookup_append_ne f k v k' hk]

theorem hasKey_pySet (f : List (String × J)) (k : String) (v : J) (k' : String) :
    hasKey (pySet f k v) k' = (decide (k' = k) || hasKey f k') := by
  rw [hasKey_eq_isSome, hasKey_eq_isSome, jLookup_pySet]
  by_cases hk : k' = k <;> simp [hk]

end Lemmas

/-- Claim C2 (code_bug evaluation): for every store, station id, time
and full new-state map, the new-update workflow of main.py builds the
new snapshot and appends it in memory, but the save call at main.py:225
passes a single positional argument to the two-parameter
`utils.sauvegarder_etats_station`, so the workflow raises `TypeError`
and nothing is ever persisted. -/
theorem C2_update_save_raises (etats_actuels : List (String × List J)) (sid now : String)
    (nouveaux_etats : List (String × J)) :
    MainPy.update_ouvrage_state_new etats_actuels sid now nouveaux_etats =
      .error "TypeError: sauvegarder_etats_station() missing 1 required positional argument: station_id" := by
  rfl

/-- Claim C6: the persistence step of `sauvegarder_etats_station` writes
to a temp file, verifies it is non-empty, then atomically replaces the
target; when it returns `True` the target holds exactly the serialized
store and no temp file remains, and when any step fails it returns
`False` (never an exception) with the original target untouched. -/
theorem C6_save_discipline (o : Utils.SaveOracle) (serialized : String) (fs : Utils.FS) :
    ((Utils.sauvegarder_persist o serialized fs).1 = true →
       (Utils.sauvegarder_persist o serialized fs).2.target = some serialized
       ∧ (Utils.sauvegarder_persist o serialized fs).2.temp = none)
    ∧ ((Utils.sauvegarder_persist o serialized fs).1 = false →
       (Utils.sauvegarder_persist o serialized fs).2.target = fs.target) := by
  unfold Utils.sauvegarder_persist Utils.tryRemoveTemp
  split_ifs <;> simp_all

/-- Witness for C6 at a concrete run: all steps succeed, the target is
replaced by the new content. -/
theorem C6_witness :
    (Utils.sauvegarder_persist ⟨true, none, true, true⟩ "x" ⟨some "old", none⟩).2.target
      = some "x" :=
  ((C6_save_discipline ⟨true, none, true, true⟩ "x" ⟨some "old", none⟩).1 rfl).1

/-- `dict(x)` (as modelled) always evaluates to a dict after the
`try/except` at utils.py:211-215. -/
theorem dictConv_obj (v : J) : ∃ m, Utils.dictConv v = .obj m := by
  unfold Utils.dictConv
  cases v with
  | arr l =>
    dsimp only
    split
    · exact ⟨_, rfl⟩
    · exact ⟨[], rfl⟩
  | s t => exact ⟨[], rfl⟩
  | n i => exact ⟨[], rfl⟩
  | b bv => exact ⟨[], rfl⟩
  | null => exact ⟨[], rfl⟩
  | obj m => exact ⟨[], rfl⟩

/-- Every dict snapshot produced by the cleanup pass of
`charger_etats_station` carries a `station_id`, a dict-valued
`etat_ouvrages` and a `date_maj`. -/
theorem cleanupEtat_obj (now sid : String) (e : J) (f : List (String × J))
    (h : Utils.cleanupEtat now sid e = .obj f) :
    hasKey f "station_id" = true
    ∧ (∃ m, jLookup f "etat_ouvrages" = some (.obj m))
    ∧ hasKey f "date_maj" = true := by
  cases e with
  | s t => exact J.noConfusion h
  | n i => exact J.noConfusion h
  | b bv => exact J.noConfusion h
  | null => exact J.noConfusion h
  | arr l => exact J.noConfusion h
  | obj fields =>
    unfold Utils.cleanupEtat at h
    have hf : f =
        (let f1 :=
          match jLookup fields "etat_ouvrages" with
          | none => pySet fields "etat_ouvrages" (.obj [])
          | some (.obj _) => fields
          | some v => pySet fields "etat_ouvrages" (Utils.dictConv v)
        let f2 := if hasKey f1 "station_id" then f1 else pySet f1 "station_id" (.s sid)
        if hasKey f2 "date_maj" then f2
        else pySet f2 "date_maj" ((jLookup f2 "date").getD (.s now))) := by
      exact (J.obj.injEq _ _).mp h.symm |>.symm ▸ rfl
    -- step 1: f1 has a dict-valued etat_ouvrages
    set f1 := (match jLookup fields "etat_ouvrages" with
      | none => pySet fields "etat_ouvrages" (.obj [])
      | some (.obj _) => fields
      | some v => pySet fields "etat_ouvrages" (Utils.dictConv v)) with hf1
    have h1 : ∃ m, jLookup f1 "etat_ouvrages" = some (.obj m) := by
      rw [hf1]
      cases heo : jLookup fields "etat_ouvrages" with
      | none => exact ⟨[], by simp [jLookup_pySet]⟩
      | some v =>
        cases v with
        | obj m => exact ⟨m, heo⟩
        | s t =>
          obtain ⟨m, hm⟩ := dictConv_obj (J.s t)
          exact ⟨m, by simp [jLookup_pySet, hm]⟩
        | n i =>
          obtain ⟨m, hm⟩ := dictConv_obj (J.n i)
          exact ⟨m, by simp [jLookup_pySet, hm]⟩
        | b bv =>
          obtain ⟨m, hm⟩ := dictConv_obj (J.b bv)
          exact ⟨m, by simp [jLookup_pySet, hm]⟩
        | null =>
          obtain ⟨m, hm⟩ := dictConv_obj J.null
          exact ⟨m, by simp [jLookup_pySet, hm]⟩
        | arr l =>
          obtain ⟨m, hm⟩ := dictConv_obj (J.arr l)
          exact ⟨m, by simp [jLookup_pySet, hm]⟩
    set f2 := (if hasKey f1 "station_id" then f1 else pySet f1 "station_id" (.s sid)) with hf2
    have h2sid : hasKey f2 "station_id" = true := by
      rw [hf2]
      by_cases hs : hasKey f1 "station_id"
      · simp [hs]
      · simp [hs, hasKey_pySet]
    have h2eo : ∃ m, jLookup f2 "etat_ouvrages" = some (.obj m) := by
      rw [hf2]
      by_cases hs : hasKey f1 "station_id"
      · simpa [hs]
      · obtain ⟨m, hm⟩ := h1
        exact ⟨m, by simp [hs, jLookup_pySet, hm]⟩
    have hstep : f = if hasKey f2 "date_maj" then f2
        else pySet f2 "date_maj" ((jLookup f2 "date").getD (.s now)) := hf
    by_cases hd : hasKey f2 "date_maj"
    · rw [hstep, if_pos hd]
      exact ⟨h2sid, h2eo, hd⟩
    · rw [hstep, if_neg hd]
      refine ⟨by simp [hasKey_pySet, h2sid], ?_, by simp [hasKey_pySet]⟩
      obtain ⟨m, hm⟩ := h2eo
      exact ⟨m, by simp [jLookup_pySet, hm]⟩

/-- A legacy single-snapshot-object store (no wrapping list) with the
legacy `etat`/`date` field names. -/
def legacySingleStore : J :=
  .obj [("S1", .obj [("etat", .obj [("Dégrillage", .s "en_panne")]),
                     ("date", .s "2024-01-01 10:00:00")])]

/-- What `charger_etats_station` returns for `legacySingleStore`: the
snapshot is wrapped in a list and normalized with an (empty)
`etat_ouvrages`, the station id and a `date_maj` synthesized from
`date`; the legacy `etat` payload is left in place but not merged. -/
def legacySingleNorm : List (String × List J) :=
  [("S1", [.obj [("etat", .obj [("Dégrillage", .s "en_panne")]),
                 ("date", .s "2024-01-01 10:00:00"),
                 ("etat_ouvrages", .obj []),
                 ("station_id", .s "S1"),
                 ("date_maj", .s "2024-01-01 10:00:00")]])]

/-- Claim C4 (amended): `charger_etats_station` accepts the canonical
shape and the single-snapshot-object legacy shape (when the object
carries one of `etat_ouvrages`/`date`/`date_maj`), and every dict
snapshot it returns carries a `station_id`, a dict-valued
`etat_ouvrages` and a `date_maj` synthesized from `date` or the current
time, so sorting by `date_maj` cannot hit a missing key on them; but a
top-level flat list (the other legacy shape) yields the empty store,
and the legacy `etat` field is not treated as an alias of
`etat_ouvrages` by this loader (only `gen_station.get_etats` renames
it). -/
theorem C4_charger_amended :
    (∀ (now : String) (data : J) (sid : String) (etats : List J),
        (sid, etats) ∈ Utils.charger_etats_station now data →
        ∀ e ∈ etats, ∀ f, e = J.obj f →
          hasKey f "station_id" = true
          ∧ (∃ m, jLookup f "etat_ouvrages" = some (.obj m))
          ∧ hasKey f "date_maj" = true)
    ∧ (∀ (now : String) (l : List J), Utils.charger_etats_station now (.arr l) = [])
    ∧ Utils.charger_etats_station "2025-06-01 12:00:00" legacySingleStore = legacySingleNorm := by
  refine ⟨?_, fun now l => rfl, rfl⟩
  intro now data sid etats hmem e he f hef
  cases data with
  | obj entries =>
    unfold Utils.charger_etats_station at hmem
    simp only [List.mem_map] at hmem
    obtain ⟨se, _, hse⟩ := hmem
    have hetats : etats = se.2.map (Utils.cleanupEtat now se.1) := by
      have := (Prod.mk.injEq _ _ _ _).mp hse
      exact this.2.symm
    rw [hetats] at he
    obtain ⟨e0, _, he0⟩ := List.mem_map.mp he
    exact cleanupEtat_obj now se.1 e0 f (by rw [he0, hef])
  | s t => simp [Utils.charger_etats_station] at hmem
  | n i => simp [Utils.charger_etats_station] at hmem
  | b bv => simp [Utils.charger_etats_station] at hmem
  | null => simp [Utils.charger_etats_station] at hmem
  | arr l => simp [Utils.charger_etats_station] at hmem

/-- Claim C4 counterexample: the flat-list legacy shape (a top-level
JSON array of snapshots carrying their own `station_id`) is rejected by
`charger_etats_station`, which returns the empty store instead of
normalizing it. -/
theorem C4_counterexample :
    Utils.charger_etats_station "2025-06-01 12:00:00"
      (.arr [.obj [("station_id", .s "S1"), ("date_maj", .s "2024-01-01 10:00:00"),
                   ("etat_ouvrages", .obj [("Dégrillage", .s "en_panne")])]]) = [] := by
  rfl

/-- Witness for C4 at the legacy single-snapshot store: the normalized
snapshot indeed carries a `date_maj`. -/
theorem C4_witness :
    hasKey [("etat", J.obj [("Dégrillage", J.s "en_panne")]),
            ("date", J.s "2024-01-01 10:00:00"),
            ("etat_ouvrages", J.obj []),
            ("station_id", J.s "S1"),
            ("date_maj", J.s "2024-01-01 10:00:00")] "date_maj" = true :=
  (C4_charger_amended.1 "2025-06-01 12:00:00" legacySingleStore "S1" _
      (by rw [C4_charger_amended.2.2]; exact List.mem_singleton.mpr rfl)
      _ (List.mem_singleton.mpr rfl) _ rfl).2.2

/-- The second cleaning loop always rebuilds a snapshot with exactly the
three fields `station_id` (a string), `date_maj` and `etat_ouvrages`
(string-valued entries only). -/
theorem nettoyer_etat_2_shape (sid now : String) (etat : List (String × J)) :
    ∃ sval dval eo,
      Utils.nettoyer_etat_2 sid now etat
        = .obj [("station_id", .s sval), ("date_maj", dval), ("etat_ouvrages", .obj eo)]
      ∧ ∀ p ∈ eo, ∃ t, p.2 = J.s t := by
  refine ⟨_, _, _, rfl, ?_⟩
  intro p hp
  split at hp
  · next m heq =>
    have hpred := (List.mem_filter.mp hp).2
    cases hpv : p.2 with
    | s t => exact ⟨t, rfl⟩
    | n i => simp [hpv] at hpred
    | b bv => simp [hpv] at hpred
    | null => simp [hpv] at hpred
    | arr l => simp [hpv] at hpred
    | obj m2 => simp [hpv] at hpred
  · simp at hp

/-- Claim C10: every snapshot persisted by `sauvegarder_etats_station`
consists of exactly the fields `station_id` (coerced to a string),
`date_maj` and `etat_ouvrages`; the legacy `date` field and every other
field are removed, and `etat_ouvrages` keeps only entries whose key and
value are both strings. -/
theorem C10_persisted_shape (defaults : Option (List (String × J))) (sid now : String)
    (etats_station : J) :
    ∀ e ∈ Utils.sauvegarder_clean defaults sid now etats_station,
      ∃ sval dval eo,
        e = .obj [("station_id", .s sval), ("date_maj", dval), ("etat_ouvrages", .obj eo)]
        ∧ ∀ p ∈ eo, ∃ t, p.2 = J.s t := by
  intro e he
  simp only [Utils.sauvegarder_clean, foldl_append_map, List.nil_append] at he
  obtain ⟨e1, _, he1⟩ := List.mem_map.mp he
  obtain ⟨sval, dval, eo, hshape, hstr⟩ := nettoyer_etat_2_shape sid now e1
  exact ⟨sval, dval, eo, by rw [← he1, hshape], hstr⟩

/-- Witness for C10: the concrete snapshot `{'date': 'd', 'extra': 1}`
for station `S1` is persisted as exactly
`{'station_id': 'S1', 'date_maj': now, 'etat_ouvrages': {}}`. -/
theorem C10_witness :
    ∃ sval dval eo,
      J.obj [("station_id", J.s "S1"), ("date_maj", J.s "2025-06-01 12:00:00"),
             ("etat_ouvrages", J.obj [])]
        = J.obj [("station_id", .s sval), ("date_maj", dval), ("etat_ouvrages", .obj eo)]
      ∧ ∀ p ∈ eo, ∃ t, p.2 = J.s t :=
  C10_persisted_shape none "S1" "2025-06-01 12:00:00"
    (.arr [.obj [("date", .s "d"), ("extra", .n 1)]]) _ (List.mem_singleton.mpr rfl)

/-- Every record the string branch of the parser produces carries `nom`
and `etat`. -/
theorem parseString_shape (i : Nat) (t : String) (r : List (String × J))
    (h : Diagramme.parseString i t = some r) :
    hasKey r "nom" = true ∧ hasKey r "etat" = true := by
  unfold Diagramme.parseString at h
  split at h
  · exact absurd h (by simp)
  · simp only [] at h
    split at h
    · next ne heq =>
      injection h with hr
      subst hr
      exact ⟨rfl, rfl⟩
    · exact absurd h (by simp)

/-- Scenario D input: a single equipment record in state `inexistant`. -/
def scenarioD_input : List J := [.obj [("nom", .s "Dégrillage"), ("etat", .s "inexistant")]]

/-- Claim C8 (amended): the parser drops records lacking `nom` or
`etat` without failing (every kept record carries both), and the bounds
computation degrades to the fixed default canvas when no block is
placed; but equipment in state `inexistant` is *not* filtered by this
pipeline: Scenario D's input yields one placed block and the bounds are
derived from it, not the empty-canvas default. -/
theorem C8_layout_amended :
    (∀ (liste : List J), ∀ r ∈ Diagramme.parser_ouvrages liste,
        hasKey r "nom" = true ∧ hasKey r "etat" = true)
    ∧ Diagramme.dessiner_bounds [] = (0, 160, -160, 20)
    ∧ (∃ blocs, Diagramme.pipeline scenarioD_input = .ok blocs
        ∧ blocs.length = 1
        ∧ Diagramme.dessiner_bounds blocs = (10, 90, -10, 28)) := by
  refine ⟨?_, rfl, ⟨_, rfl, rfl, by decide⟩⟩
  intro liste r hr
  unfold Diagramme.parser_ouvrages at hr
  obtain ⟨ia, _, hia⟩ := List.mem_filterMap.mp hr
  unfold Diagramme.parseItem at hia
  split at hia
  · simp only [] at hia
    split at hia
    · split at hia
      · rename_i hcond
        injection hia with hr2
        subst hr2
        exact ⟨hcond.1, hcond.2⟩
      · exact absurd hia (by simp)
    · split at hia
      · rename_i hcond
        injection hia with hr2
        subst hr2
        exact ⟨hcond.1, hcond.2⟩
      · exact absurd hia (by simp)
  · exact parseString_shape _ _ _ hia
  · exact absurd hia (by simp)

/-- Claim C8 counterexample: Scenario D's input produces one placed
block (not zero) and bounds derived from that block (not the
empty-canvas default box). -/
theorem C8_counterexample :
    ∃ blocs, Diagramme.pipeline scenarioD_input = .ok blocs
      ∧ blocs.length = 1
      ∧ Diagramme.dessiner_bounds blocs ≠ (0, 160, -160, 20) := by
  refine ⟨_, rfl, rfl, by decide⟩

/-- Witness for C8: the single record parsed from Scenario D's input
carries `nom` and `etat`. -/
theorem C8_witness :
    hasKey [("nom", J.s "Dégrillage"), ("etat", J.s "inexistant"), ("id", J.n 1)] "nom" = true :=
  (C8_layout_amended.1 scenarioD_input _ (List.mem_singleton.mpr rfl)).1

/-- Key membership can be read off the key list. -/
theorem any_map_fst {α : Type} (m : List (String × α)) (k : String) :
    ((m.map Prod.fst).any (fun a => a = k)) = (m.any (fun p => p.1 = k)) := by
  induction m with
  | nil => rfl
  | cons p ps ih => simp [ih]

/-- An ordered-dict assignment only adds the key when new, keeping the
existing key order otherwise. -/
theorem odSet_keys (m : List (String × String)) (k v : String) :
    (odSet m k v).map Prod.fst = pushNew (m.map Prod.fst) k := by
  unfold odSet pushNew
  have hh := any_map_fst m k
  by_cases h : m.any (fun p => p.1 = k)
  · rw [if_pos h, if_pos (by rw [hh]; exact h)]
    rw [List.map_map]
    apply List.map_congr_left
    intro p _
    by_cases hp : p.1 = k <;> simp [hp]
  · rw [if_neg h, if_neg (by rw [hh]; exact h)]
    simp

/-- The diagram-path merge keeps exactly the canonical keys in the
canonical order. -/
theorem mergeEtats_keys (canon snap : List (String × String)) :
    (Diagramme.mergeEtats canon snap).map Prod.fst = canon.map Prod.fst := by
  induction snap generalizing canon with
  | nil => rfl
  | cons p rest ih =>
    have hstep : Diagramme.mergeEtats canon (p :: rest)
        = Diagramme.mergeEtats
            (if canon.any (fun q => q.1 = p.1) then odSet canon p.1 p.2 else canon) rest := rfl
    rw [hstep, ih]
    by_cases h : canon.any (fun q => q.1 = p.1)
    · rw [if_pos h, odSet_keys]
      unfold pushNew
      rw [if_pos (by rw [any_map_fst]; exact h)]
    · rw [if_neg h]

/-- Scenario A's canonical order with its initial states. -/
def scenarioA_ordre : List (String × String) :=
  [("Dégrillage", "en_service"), ("Dessablage/Dégraissage", "en_service"),
   ("Bassins d\x27aération", "en_service"), ("Clarificateur", "en_service")]

/-- The edit-path ordering never loses nor invents a snapshot key. -/
theorem ouvrages_a_afficher_mem (ordre etats : List (String × String)) (k : String) :
    k ∈ MainPy.ouvrages_a_afficher (some ordre) etats ↔ k ∈ etats.map Prod.fst := by
  unfold MainPy.ouvrages_a_afficher
  by_cases ho : ordre.isEmpty
  · simp [ho]
  · simp only [ho, Bool.false_eq_true, if_false]
    set first := (ordre.map Prod.fst).filter (fun n => etats.any (fun p => p.1 = n)) with hfirst
    set extras := (etats.map Prod.fst).filter (fun kk => ¬ first.any (fun a => a = kk)) with hextras
    by_cases he : (first ++ extras).isEmpty
    · simp [he]
    · simp only [he, Bool.false_eq_true, if_false]
      constructor
      · intro hk
        rcases List.mem_append.mp hk with h1 | h2
        · have hcond := (List.mem_filter.mp (hfirst ▸ h1)).2
          simp only [List.any_eq_true, decide_eq_true_eq] at hcond
          obtain ⟨p, hp, hpk⟩ := hcond
          exact List.mem_map.mpr ⟨p, hp, hpk⟩
        · exact (List.mem_filter.mp (hextras ▸ h2)).1
      · intro hk
        by_cases hf : k ∈ first
        · exact List.mem_append.mpr (Or.inl hf)
        · refine List.mem_append.mpr (Or.inr (List.mem_filter.mpr ⟨hk, ?_⟩))
          simp only [List.any_eq_true, decide_eq_true_eq]
          rintro ⟨a, ha, hak⟩
          exact hf (hak ▸ ha)

/-- Claim C5 (amended): two distinct reconciliations coexist.  The
edit path (`afficher_et_modifier_etats`) keeps exactly the snapshot's
keys — catalog-present ones first in canonical order, then the unknown
ones in their original order — but does not add missing canonical
equipment; the diagram path (`generer_diagramme_station`) returns
exactly the canonical names in canonical order, overriding defaults
with snapshot states for catalog-known names and dropping snapshot keys
unknown to the catalog.  Scenario B's expected map is produced by the
diagram path, not the edit path. -/
theorem C5_reconcile_amended :
    (∀ (ordre etats : List (String × String)) (k : String),
        (k ∈ MainPy.ouvrages_a_afficher (some ordre) etats ↔ k ∈ etats.map Prod.fst))
    ∧ (∀ (canon snap : List (String × String)),
        (Diagramme.mergeEtats canon snap).map Prod.fst = canon.map Prod.fst)
    ∧ Diagramme.mergeEtats scenarioA_ordre [("Dégrillage", "en_panne")]
        = [("Dégrillage", "en_panne"), ("Dessablage/Dégraissage", "en_service"),
           ("Bassins d\x27aération", "en_service"), ("Clarificateur", "en_service")]
    ∧ MainPy.ouvrages_a_afficher (some scenarioA_ordre) [("Dégrillage", "en_panne")]
        = ["Dégrillage"] :=
  ⟨ouvrages_a_afficher_mem, mergeEtats_keys, by decide, by decide⟩

/-- Claim C5 counterexample: reconciling a snapshot that contains an
equipment name unknown to the catalog through the diagram path loses
that key, contradicting "no key of the snapshot lost". -/
theorem C5_counterexample :
    "Ancien filtre" ∈ ([("Dégrillage", "en_panne"), ("Ancien filtre", "en_panne")].map
        (Prod.fst (α := String) (β := String)))
    ∧ "Ancien filtre" ∉ (Diagramme.mergeEtats scenarioA_ordre
        [("Dégrillage", "en_panne"), ("Ancien filtre", "en_panne")]).map Prod.fst := by
  decide

/-- Witness for C5: the edit path keeps the snapshot key `Dégrillage`.
-/
theorem C5_witness :
    "Dégrillage" ∈ MainPy.ouvrages_a_afficher (some scenarioA_ordre) [("Dégrillage", "en_panne")] :=
  (C5_reconcile_amended.1 scenarioA_ordre [("Dégrillage", "en_panne")] "Dégrillage").mpr
    (by decide)


theorem pyLexLt_irrefl (a : List Char) : Diagramme.pyLexLt a a = false := by
  induction a with
  | nil => rfl
  | cons c cs ih => simp [Diagramme.pyLexLt, ih]

theorem pyLexLt_trans {a b c : List Char}
    (h1 : Diagramme.pyLexLt a b = true) (h2 : Diagramme.pyLexLt b c = true) :
    Diagramme.pyLexLt a c = true := by
  induction a generalizing b c with
  | nil =>
    cases c with
    | nil =>
      cases b with
      | nil => exact absurd h1 (by simp [Diagramme.pyLexLt])
      | cons y ys => exact absurd h2 (by simp [Diagramme.pyLexLt])
    | cons z zs => rfl
  | cons x xs ih =>
    cases b with
    | nil => exact absurd h1 (by simp [Diagramme.pyLexLt])
    | cons y ys =>
      cases c with
      | nil => exact absurd h2 (by simp [Diagramme.pyLexLt])
      | cons z zs =>
        simp only [Diagramme.pyLexLt] at h1 h2 ⊢
        by_cases hxy : x.toNat < y.toNat
        · by_cases hyz : y.toNat < z.toNat
          · simp [Nat.lt_trans hxy hyz]
          · simp only [hyz, if_false] at h2
            by_cases hzy : z.toNat < y.toNat
            · simp [hzy] at h2
            · have : y.toNat = z.toNat := Nat.le_antisymm (Nat.not_lt.mp hzy) (Nat.not_lt.mp hyz)
              simp [this ▸ hxy]
        · simp only [hxy, if_false] at h1
          by_cases hyx : y.toNat < x.toNat
          · simp [hyx] at h1
          · have hxyeq : x.toNat = y.toNat := Nat.le_antisymm (Nat.not_lt.mp hyx) (Nat.not_lt.mp hxy)
            simp only [if_neg hxy, if_neg hyx] at h1
            by_cases hyz : y.toNat < z.toNat
            · simp [hxyeq ▸ hyz]
            · simp only [hyz, if_false] at h2
              by_cases hzy : z.toNat < y.toNat
              · simp [hzy] at h2
              · simp only [if_neg hzy] at h2
                have hxz : ¬ x.toNat < z.toNat := by omega
                have hzx : ¬ z.toNat < x.toNat := by omega
                simp [hxz, hzx, ih h1 h2]

theorem pyLexLt_false_trans {a b c : List Char}
    (h1 : Diagramme.pyLexLt a b = false) (h2 : Diagramme.pyLexLt b c = false) :
    Diagramme.pyLexLt a c = false := by
  induction a generalizing b c with
  | nil =>
    cases b with
    | nil =>
      cases c with
      | nil => rfl
      | cons z zs => exact absurd h2 (by simp [Diagramme.pyLexLt])
    | cons y ys => exact absurd h1 (by simp [Diagramme.pyLexLt])
  | cons x xs ih =>
    cases c with
    | nil => rfl
    | cons z zs =>
      cases b with
      | nil => exact absurd h2 (by simp [Diagramme.pyLexLt])
      | cons y ys =>
        simp only [Diagramme.pyLexLt] at h1 h2 ⊢
        by_cases hxy : x.toNat < y.toNat
        · simp [hxy] at h1
        · by_cases hyz : y.toNat < z.toNat
          · simp [hyz] at h2
          · by_cases hyx : y.toNat < x.toNat
            · have hzx : ¬ x.toNat < z.toNat := by omega
              have hzx2 : z.toNat < x.toNat := by omega
              simp [hzx, hzx2]
            · have hxyeq : x.toNat = y.toNat := Nat.le_antisymm (Nat.not_lt.mp hyx) (Nat.not_lt.mp hxy)
              simp only [if_neg hxy, if_neg hyx] at h1
              by_cases hzy : z.toNat < y.toNat
              · have h1' : ¬ x.toNat < z.toNat := by omega
                have h2' : z.toNat < x.toNat := by omega
                simp [h1', h2']
              · simp only [if_neg hyz, if_neg hzy] at h2
                have hxz : ¬ x.toNat < z.toNat := by omega
                have hzx : ¬ z.toNat < x.toNat := by omega
                simp [hxz, hzx, ih h1 h2]

theorem pyStrLt_irrefl (a : String) : Diagramme.pyStrLt a a = false :=
  pyLexLt_irrefl a.data

theorem pyStrLt_trans {a b c : String} (h1 : Diagramme.pyStrLt a b = true)
    (h2 : Diagramme.pyStrLt b c = true) : Diagramme.pyStrLt a c = true :=
  pyLexLt_trans h1 h2

theorem pyStrLt_false_trans {a b c : String} (h1 : Diagramme.pyStrLt a b = false)
    (h2 : Diagramme.pyStrLt b c = false) : Diagramme.pyStrLt a c = false :=
  pyLexLt_false_trans h1 h2

theorem pyStrLt_asymm {a b : String} (h : Diagramme.pyStrLt a b = true) :
    Diagramme.pyStrLt b a = false := by
  by_contra hc
  rw [Bool.not_eq_false] at hc
  have h2 := pyLexLt_trans h hc
  rw [pyLexLt_irrefl] at h2
  exact Bool.false_ne_true h2

/-- Recurrence for Python `max`: prepending an element keeps it unless
the maximum of the rest has a strictly greater key (so the earliest
maximal element survives). -/
theorem firstMaxBy_cons {α : Type} (key : α → String) (ys : List α) (y x : α) :
    Diagramme.firstMaxBy key x (y :: ys)
      = if Diagramme.pyStrLt (key x) (key (Diagramme.firstMaxBy key y ys))
        then Diagramme.firstMaxBy key y ys else x := by
  induction ys generalizing x y with
  | nil => rfl
  | cons z zs ih =>
    have hL : Diagramme.firstMaxBy key x (y :: z :: zs)
        = Diagramme.firstMaxBy key
            (if Diagramme.pyStrLt (key x) (key y) then y else x) (z :: zs) := rfl
    rw [hL, ih, ih]
    by_cases hxy : Diagramme.pyStrLt (key x) (key y) = true
    · by_cases hym : Diagramme.pyStrLt (key y) (key (Diagramme.firstMaxBy key z zs)) = true
      · simp [hxy, hym, pyStrLt_trans hxy hym]
      · rw [Bool.not_eq_true] at hym
        simp [hxy, hym]
    · rw [Bool.not_eq_true] at hxy
      by_cases hym : Diagramme.pyStrLt (key y) (key (Diagramme.firstMaxBy key z zs)) = true
      · simp [hxy, hym]
      · rw [Bool.not_eq_true] at hym
        simp [hxy, hym, pyStrLt_false_trans hxy hym]

/-- The head of the stable descending sort is Python's
`max(..., key=...)`: the first element with the maximal key. -/
theorem sortDescBy_head {α : Type} (key : α → String) (xs : List α) (x : α) :
    (Diagramme.sortDescBy key (x :: xs)).head? = some (Diagramme.firstMaxBy key x xs) := by
  induction xs generalizing x with
  | nil => rfl
  | cons y ys ih =>
    have hrec : Diagramme.sortDescBy key (x :: y :: ys)
        = Diagramme.insertDescBy key x (Diagramme.sortDescBy key (y :: ys)) := rfl
    rw [hrec]
    cases hs : Diagramme.sortDescBy key (y :: ys) with
    | nil =>
      have h := ih y
      rw [hs] at h
      exact absurd h (by simp)
    | cons m t =>
      have hm : m = Diagramme.firstMaxBy key y ys := by
        have h := ih y
        rw [hs] at h
        simpa using h
      rw [firstMaxBy_cons, ← hm]
      unfold Diagramme.insertDescBy
      by_cases hc : Diagramme.pyStrLt (key x) (key m) = true
      · simp [hc]
      · rw [Bool.not_eq_true] at hc
        simp [hc]

/-- The element Python's `max` selects has the (weakly) greatest key:
no element's key is strictly greater. -/
theorem firstMaxBy_ge {α : Type} (key : α → String) (x : α) (xs : List α) :
    ∀ y ∈ x :: xs,
      Diagramme.pyStrLt (key (Diagramme.firstMaxBy key x xs)) (key y) = false := by
  induction xs generalizing x with
  | nil =>
    intro y hy
    rcases List.mem_singleton.mp hy with rfl
    exact pyStrLt_irrefl _
  | cons z zs ih =>
    intro y hy
    have hstep : Diagramme.firstMaxBy key x (z :: zs)
        = Diagramme.firstMaxBy key
            (if Diagramme.pyStrLt (key x) (key z) then z else x) zs := rfl
    rw [hstep]
    have hsx : Diagramme.pyStrLt
        (key (if Diagramme.pyStrLt (key x) (key z) then z else x)) (key x) = false := by
      by_cases h : Diagramme.pyStrLt (key x) (key z) = true
      · simp [h, pyStrLt_asymm h]
      · rw [Bool.not_eq_true] at h
        simp [h, pyStrLt_irrefl]
    have hsz : Diagramme.pyStrLt
        (key (if Diagramme.pyStrLt (key x) (key z) then z else x)) (key z) = false := by
      by_cases h : Diagramme.pyStrLt (key x) (key z) = true
      · simp [h, pyStrLt_irrefl]
      · rw [Bool.not_eq_true] at h
        simp [h]
    have hhead := ih (if Diagramme.pyStrLt (key x) (key z) then z else x) _
      (List.mem_cons_self _ _)
    rcases List.mem_cons.mp hy with rfl | hy2
    · exact pyStrLt_false_trans hhead hsx
    · rcases List.mem_cons.mp hy2 with rfl | hy3
      · exact pyStrLt_false_trans hhead hsz
      · exact ih _ y (List.mem_cons_of_mem _ hy3)

/-- Scenario C snapshots. -/
def scenarioC_jan : Diagramme.Etat :=
  ⟨some "2024-01-01 10:00:00", none, [("Dégrillage", "en_service")]⟩

def scenarioC_feb : Diagramme.Etat :=
  ⟨some "2024-02-01 09:00:00", none, [("Dégrillage", "en_panne")]⟩

/-- Claim C3 (amended): for every non-empty history,
`get_station_etat` returns the equipment map and timestamp of the
snapshot with the lexicographically greatest `date_maj` (with `date`
fallback), and among several snapshots sharing that greatest key the
one appended *first* wins (Python's stable descending sort keeps the
original order among equal keys, so the head is `max(...)`, the
earliest maximal snapshot); in Scenario C the February snapshot is
returned. -/
theorem C3_latest_state_amended :
    (∀ (x : Diagramme.Etat) (xs : List Diagramme.Etat),
        Diagramme.get_station_etat (x :: xs)
          = some ((Diagramme.firstMaxBy Diagramme.snapKey x xs).etat_ouvrages,
                  (Diagramme.firstMaxBy Diagramme.snapKey x xs).date_maj)
        ∧ ∀ y ∈ x :: xs,
            Diagramme.pyStrLt
              (Diagramme.snapKey (Diagramme.firstMaxBy Diagramme.snapKey x xs))
              (Diagramme.snapKey y) = false)
    ∧ Diagramme.get_station_etat [scenarioC_jan, scenarioC_feb]
        = some (scenarioC_feb.etat_ouvrages, some "2024-02-01 09:00:00") := by
  constructor
  · intro x xs
    refine ⟨?_, firstMaxBy_ge _ x xs⟩
    unfold Diagramme.get_station_etat
    rw [if_neg (by simp)]
    have hh := sortDescBy_head Diagramme.snapKey xs x
    cases hs : Diagramme.sortDescBy Diagramme.snapKey (x :: xs) with
    | nil =>
      rw [hs] at hh
      exact absurd hh (by simp)
    | cons d t =>
      rw [hs] at hh
      have hd : d = Diagramme.firstMaxBy Diagramme.snapKey x xs := by simpa using hh
      rw [hd]
  · decide

/-- Two snapshots with the same greatest `date_maj`: the code returns
the first-appended one, not the last-appended one. -/
def tieFirst : Diagramme.Etat := ⟨some "2024-01-01 10:00:00", none, [("X", "en_panne")]⟩

def tieSecond : Diagramme.Etat := ⟨some "2024-01-01 10:00:00", none, [("X", "en_service")]⟩

/-- Claim C3 counterexample: with two snapshots sharing the greatest
`date_maj`, `get_station_etat` returns the first-appended snapshot,
not the last-appended one as the claim states. -/
theorem C3_counterexample :
    Diagramme.snapKey tieFirst = Diagramme.snapKey tieSecond
    ∧ Diagramme.get_station_etat [tieFirst, tieSecond]
        = some (tieFirst.etat_ouvrages, tieFirst.date_maj)
    ∧ Diagramme.get_station_etat [tieFirst, tieSecond]
        ≠ some (tieSecond.etat_ouvrages, tieSecond.date_maj) := by
  refine ⟨rfl, by decide, by decide⟩

/-- Witness for C3: applying the selection theorem to the tied pair
shows the chosen snapshot's key is not exceeded by the second one. -/
theorem C3_witness :
    Diagramme.pyStrLt
      (Diagramme.snapKey (Diagramme.firstMaxBy Diagramme.snapKey tieFirst [tieSecond]))
      (Diagramme.snapKey tieSecond) = false :=
  (C3_latest_state_amended.1 tieFirst [tieSecond]).2 tieSecond
    (List.mem_cons_of_mem _ (List.mem_singleton.mpr rfl))

/-- Key-list effect of one stage item of `get_ouvrages_procede`. -/
def stageKeyStep (l : List String) (it : J) : List String :=
  match it with
  | J.s v => if pyStrip v ≠ "" then pushNew l (pyStrip v) else l
  | _ => l

theorem addStage_keys (items : List J) (m : List (String × String)) :
    (GenStation.addStage m (.arr items)).map Prod.fst
      = items.foldl stageKeyStep (m.map Prod.fst) := by
  induction items generalizing m with
  | nil => rfl
  | cons it rest ih =>
    have hstep : GenStation.addStage m (.arr (it :: rest))
        = GenStation.addStage
            (match it with
             | J.s v => if pyStrip v ≠ "" then odSet m (pyStrip v) "en_service" else m
             | _ => m) (.arr rest) := rfl
    rw [hstep, ih]
    simp only [List.foldl_cons]
    congr 1
    cases it with
    | s v =>
      simp only [stageKeyStep]
      by_cases hv : pyStrip v ≠ ""
      · rw [if_pos hv, if_pos hv]
        exact odSet_keys m (pyStrip v) "en_service"
      · rw [if_neg hv, if_neg hv]
    | n i => rfl
    | b bv => rfl
    | null => rfl
    | arr l => rfl
    | obj o => rfl

theorem addStageIfAbsent_keys (items : List J) (m : List (String × String)) :
    (GenStation.addStageIfAbsent m (.arr items)).map Prod.fst
      = items.foldl stageKeyStep (m.map Prod.fst) := by
  induction items generalizing m with
  | nil => rfl
  | cons it rest ih =>
    have hstep : GenStation.addStageIfAbsent m (.arr (it :: rest))
        = GenStation.addStageIfAbsent
            (match it with
             | J.s v =>
               if pyStrip v ≠ "" ∧ ¬ m.any (fun p => p.1 = pyStrip v)
               then m ++ [(pyStrip v, "en_service")] else m
             | _ => m) (.arr rest) := rfl
    rw [hstep, ih]
    simp only [List.foldl_cons]
    congr 1
    cases it with
    | s v =>
      simp only [stageKeyStep]
      by_cases hv : pyStrip v ≠ ""
      · rw [if_pos hv]
        by_cases hmem : m.any (fun p => p.1 = pyStrip v) = true
        · rw [if_neg (fun hc => hc.2 hmem)]
          unfold pushNew
          rw [if_pos (by rw [any_map_fst]; exact hmem)]
        · rw [if_pos ⟨hv, hmem⟩]
          unfold pushNew
          rw [if_neg (by rw [any_map_fst]; exact hmem)]
          simp
      · rw [if_neg hv, if_neg (fun hc => hv hc.1)]
    | n i => rfl
    | b bv => rfl
    | null => rfl
    | arr l => rfl
    | obj o => rfl

/-- On a well-formed stage (names already stripped and non-empty) the
key fold is a plain first-occurrence fold over the names. -/
theorem stageKeyStep_wf (names : List String) (l : List String)
    (h : ∀ n ∈ names, pyStrip n = n ∧ n ≠ "") :
    (names.map J.s).foldl stageKeyStep l = names.foldl pushNew l := by
  induction names generalizing l with
  | nil => rfl
  | cons n rest ih =>
    simp only [List.map_cons, List.foldl_cons]
    obtain ⟨hn1, hn2⟩ := h n (List.mem_cons_self _ _)
    have hred : stageKeyStep l (J.s n) = pushNew l n := by
      simp only [stageKeyStep, hn1]
      rw [if_pos hn2]
    rw [hred]
    exact ih _ (fun n2 hn => h n2 (List.mem_cons_of_mem _ hn))

theorem pushNew_nodup {l : List String} (h : l.Nodup) (k : String) :
    (pushNew l k).Nodup := by
  unfold pushNew
  by_cases hc : l.any (fun a => a = k) = true
  · simpa [hc]
  · rw [if_neg hc]
    rw [List.nodup_append]
    refine ⟨h, List.nodup_singleton k, ?_⟩
    intro a ha hk
    rcases List.mem_singleton.mp hk with rfl
    exact hc (List.any_eq_true.mpr ⟨a, ha, by simp⟩)

theorem foldl_pushNew_nodup (names : List String) (l : List String) (h : l.Nodup) :
    (names.foldl pushNew l).Nodup := by
  induction names generalizing l with
  | nil => exact h
  | cons n rest ih => exact ih _ (pushNew_nodup h n)

/-- Claim C1: for every process-type entry present in the catalog whose
five stages are (well-formed) name lists, `get_ouvrages_procede`
returns the names in the fixed stage priority order — `pretraitement`,
`traitement_primaire`, `traitement_secondaire`, `traitement_tertiaire`,
`filiere_boue`, read by key and hence independent of the catalog's own
key order — keeping the catalog-declared order within each stage with
the first occurrence of a repeated name winning, and with no duplicate
names; Scenario A returns its four equipment names in order. -/
theorem C1_canonical_order
    (entries pdata fe : List (String × J)) (ptype : String)
    (s1 s2 s3 s4 s5 : List String)
    (hptype : ptype ≠ "")
    (hfound : jLookup entries ptype = some (.obj pdata))
    (hfe : jLookup pdata "filiere_eau" = some (.obj fe))
    (h1 : jLookup fe "pretraitement" = some (.arr (s1.map J.s)))
    (h2 : jLookup fe "traitement_primaire" = some (.arr (s2.map J.s)))
    (h3 : jLookup fe "traitement_secondaire" = some (.arr (s3.map J.s)))
    (h4 : jLookup pdata "traitement_tertiaire" = some (.arr (s4.map J.s)))
    (h5 : jLookup pdata "filiere_boue" = some (.arr (s5.map J.s)))
    (hwf : ∀ n ∈ s1 ++ s2 ++ s3 ++ s4 ++ s5, pyStrip n = n ∧ n ≠ "") :
    ((GenStation.get_ouvrages_procede ptype (.obj entries)).map Prod.fst
        = specCanonicalOrder [s1, s2, s3, s4, s5]
      ∧ ((GenStation.get_ouvrages_procede ptype (.obj entries)).map Prod.fst).Nodup)
    ∧ (GenStation.get_ouvrages_procede "boues_activees" scenarioA_catalog).map Prod.fst
        = ["Dégrillage", "Dessablage/Dégraissage", "Bassins d\x27aération", "Clarificateur"] := by
  have hget : GenStation.get_ouvrages_procede ptype (.obj entries) = GenStation.genBody pdata := by
    unfold GenStation.get_ouvrages_procede
    rw [if_neg hptype]
    dsimp only
    rw [hfound]
  have hw1 : ∀ n ∈ s1, pyStrip n = n ∧ n ≠ "" := fun n hn => hwf n (by simp [hn])
  have hw2 : ∀ n ∈ s2, pyStrip n = n ∧ n ≠ "" := fun n hn => hwf n (by simp [hn])
  have hw3 : ∀ n ∈ s3, pyStrip n = n ∧ n ≠ "" := fun n hn => hwf n (by simp [hn])
  have hw4 : ∀ n ∈ s4, pyStrip n = n ∧ n ≠ "" := fun n hn => hwf n (by simp [hn])
  have hw5 : ∀ n ∈ s5, pyStrip n = n ∧ n ≠ "" := fun n hn => hwf n (by simp [hn])
  have hkeys : (GenStation.genBody pdata).map Prod.fst
      = specCanonicalOrder [s1, s2, s3, s4, s5] := by
    unfold GenStation.genBody
    rw [hfe]
    simp only [Option.getD_some]
    rw [h1, h2, h3, h4, h5]
    simp only [Option.getD_some]
    rw [addStageIfAbsent_keys, addStageIfAbsent_keys, addStage_keys, addStage_keys,
        addStage_keys]
    simp only [List.map_nil]
    rw [stageKeyStep_wf s1 _ hw1, stageKeyStep_wf s2 _ hw2, stageKeyStep_wf s3 _ hw3,
        stageKeyStep_wf s4 _ hw4, stageKeyStep_wf s5 _ hw5]
    simp [specCanonicalOrder, List.foldl_append]
  refine ⟨⟨by rw [hget, hkeys], ?_⟩, rfl⟩
  rw [hget, hkeys]
  unfold specCanonicalOrder
  exact foldl_pushNew_nodup _ _ List.nodup_nil

/-- A full five-stage catalog used to witness the canonical-order
theorem on a concrete entry. -/
def c1_full_pdata : List (String × J) :=
  [("filiere_eau", .obj [
      ("pretraitement", .arr [.s "Dégrillage", .s "Dessablage/Dégraissage"]),
      ("traitement_primaire", .arr [.s "Décanteur primaire"]),
      ("traitement_secondaire", .arr [.s "Bassins d\x27aération", .s "Clarificateur"])]),
   ("traitement_tertiaire", .arr [.s "Désinfection UV"]),
   ("filiere_boue", .arr [.s "Épaississement des boues", .s "Lits de séchage"])]

/-- Witness for C1 at the full five-stage catalog. -/
theorem C1_witness :
    (GenStation.get_ouvrages_procede "boues_activees"
        (.obj [("boues_activees", .obj c1_full_pdata)])).map Prod.fst
      = specCanonicalOrder
          [["Dégrillage", "Dessablage/Dégraissage"], ["Décanteur primaire"],
           ["Bassins d\x27aération", "Clarificateur"], ["Désinfection UV"],
           ["Épaississement des boues", "Lits de séchage"]] :=
  (C1_canonical_order [("boues_activees", .obj c1_full_pdata)] c1_full_pdata
      [("pretraitement", .arr [.s "Dégrillage", .s "Dessablage/Dégraissage"]),
       ("traitement_primaire", .arr [.s "Décanteur primaire"]),
       ("traitement_secondaire", .arr [.s "Bassins d\x27aération", .s "Clarificateur"])]
      "boues_activees"
      ["Dégrillage", "Dessablage/Dégraissage"] ["Décanteur primaire"]
      ["Bassins d\x27aération", "Clarificateur"] ["Désinfection UV"]
      ["Épaississement des boues", "Lits de séchage"]
      (by decide) rfl rfl rfl rfl rfl rfl rfl (by decide)).1.1

/-- Claim C9 (amended): only the utils revision of
`get_ouvrages_procede` matches the process-type identifier case- and
accent-insensitively — identifiers with equal `normalize` images yield
identical results there — while the gen_station (and main) revisions
match catalog keys exactly, so an identifier absent as a literal key
yields the empty result. -/
theorem C9_matching_amended :
    (∀ (types_data : J) (t1 t2 : String),
        Utils.normalize t1 = Utils.normalize t2 →
        Utils.get_ouvrages_procede t1 types_data = Utils.get_ouvrages_procede t2 types_data)
    ∧ (∀ (entries : List (String × J)) (t : String),
        jLookup entries t = none →
        GenStation.get_ouvrages_procede t (.obj entries) = []) := by
  constructor
  · intro td t1 t2 h
    cases td with
    | obj entries =>
      unfold Utils.get_ouvrages_procede
      rw [h]
    | s v => rfl
    | n i => rfl
    | b bv => rfl
    | null => rfl
    | arr l => rfl
  · intro entries t h
    unfold GenStation.get_ouvrages_procede
    by_cases ht : t = ""
    · rw [if_pos ht]
    · rw [if_neg ht]
      dsimp only
      rw [h]

/-- Claim C9 counterexample: `BOUES_ACTIVEES` and `boues_activees`
normalize identically, yet the gen_station revision (exact key match)
returns the empty dict for the first and the populated dict for the
second. -/
theorem C9_counterexample :
    Utils.normalize "BOUES_ACTIVEES" = Utils.normalize "boues_activees"
    ∧ GenStation.get_ouvrages_procede "BOUES_ACTIVEES" scenarioA_catalog = []
    ∧ GenStation.get_ouvrages_procede "boues_activees" scenarioA_catalog ≠ [] := by
  refine ⟨rfl, rfl, by decide⟩

/-- Witness for C9: the utils revision treats the two spellings
identically on Scenario A's catalog. -/
theorem C9_witness :
    Utils.get_ouvrages_procede "BOUES_ACTIVEES" scenarioA_catalog
      = Utils.get_ouvrages_procede "boues_activees" scenarioA_catalog :=
  C9_matching_amended.1 scenarioA_catalog "BOUES_ACTIVEES" "boues_activees" rfl

/-- Filling fresh distinct keys one by one just appends them. -/
theorem foldl_pushNew_of_nodup (names : List String) (l : List String)
    (hl : ∀ n ∈ names, l.any (fun a => a = n) = false) (hnd : names.Nodup) :
    names.foldl pushNew l = l ++ names := by
  induction names generalizing l with
  | nil => simp
  | cons n rest ih =>
    simp only [List.foldl_cons]
    have hn : pushNew l n = l ++ [n] := by
      unfold pushNew
      rw [if_neg (by simp [hl n (List.mem_cons_self _ _)])]
    rw [hn, ih]
    · simp
    · intro n2 hn2
      simp only [List.any_append, List.any_cons, List.any_nil, Bool.or_false]
      have h1 := hl n2 (List.mem_cons_of_mem _ hn2)
      have h2 : n ≠ n2 := fun hc => (List.nodup_cons.mp hnd).1 (hc ▸ hn2)
      simp [h1, h2]
    · exact (List.nodup_cons.mp hnd).2

/-- Key-list effect of the main.py list-stage loop under well-formed
names (stored unstripped; identical to the stripped fold since the
names are already stripped). -/
theorem mainStage_keys_wf (names : List String) (m : List (String × String))
    (h : ∀ n ∈ names, pyStrip n = n ∧ n ≠ "") :
    (MainPy.mainStage (some (.arr (names.map J.s))) m).map Prod.fst
      = names.foldl pushNew (m.map Prod.fst) := by
  induction names generalizing m with
  | nil => rfl
  | cons n rest ih =>
    obtain ⟨hn1, hn2⟩ := h n (List.mem_cons_self _ _)
    have hn2' : pyStrip n ≠ "" := by rw [hn1]; exact hn2
    have hstep : MainPy.mainStage (some (.arr ((n :: rest).map J.s))) m
        = MainPy.mainStage (some (.arr (rest.map J.s)))
            (if pyStrip n ≠ "" then odSet m n "en_service" else m) := rfl
    rw [hstep, if_pos hn2', ih _ (fun n2 hn => h n2 (List.mem_cons_of_mem _ hn))]
    simp only [List.foldl_cons]
    rw [odSet_keys]

/-- A catalog whose `pretraitement` stage is the legacy mapping shape
and whose `traitement_secondaire` stage is a list. -/
def c7_catalog (ms : List (String × J)) (names : List String) : J :=
  .obj [("p", .obj [
    ("filiere_eau", .obj [
      ("pretraitement", .obj ms),
      ("traitement_secondaire", .arr (names.map J.s))])])]

/-- Claim C7 (amended): list-shaped stage values yield their names in
declared order, but a legacy mapping-shaped stage is not iterated: the
gen_station and main revisions silently skip it (its names are dropped
without failing) while the utils revision aborts on it and returns
`None` (its helper's non-list branch reads an unbound variable). -/
theorem C7_stage_shapes (ms : List (String × J)) (names : List String)
    (hwf : ∀ n ∈ names, pyStrip n = n ∧ n ≠ "") (hnd : names.Nodup) :
    (GenStation.get_ouvrages_procede "p" (c7_catalog ms names)).map Prod.fst = names
    ∧ Utils.get_ouvrages_procede "p" (c7_catalog ms names) = none
    ∧ (MainPy.get_ouvrages_procede "p" (c7_catalog ms names)).map (List.map Prod.fst)
        = some names := by
  refine ⟨?_, rfl, ?_⟩
  · have hred : GenStation.get_ouvrages_procede "p" (c7_catalog ms names)
        = GenStation.addStage [] (.arr (names.map J.s)) := rfl
    rw [hred, addStage_keys, List.map_nil, stageKeyStep_wf names [] hwf,
        foldl_pushNew_of_nodup names [] (fun n _ => rfl) hnd]
    exact List.nil_append names
  · have hred : MainPy.get_ouvrages_procede "p" (c7_catalog ms names)
        = some (MainPy.mainStage (some (.arr (names.map J.s))) []) := rfl
    rw [hred]
    show some ((MainPy.mainStage (some (.arr (names.map J.s))) []).map Prod.fst) = some names
    rw [mainStage_keys_wf names [] hwf, List.map_nil,
        foldl_pushNew_of_nodup names [] (fun n _ => rfl) hnd]
    exact congrArg some (List.nil_append names)

/-- Claim C7 counterexample: a mapping-shaped `pretraitement` stage is
dropped by the gen_station revision (its name never appears) and makes
the utils revision return `None`. -/
theorem C7_counterexample :
    ¬ ("Dégrillage" ∈ (GenStation.get_ouvrages_procede "p"
        (c7_catalog [("Dégrillage", .s "en_service")] ["Clarificateur"])).map Prod.fst)
    ∧ Utils.get_ouvrages_procede "p"
        (c7_catalog [("Dégrillage", .s "en_service")] ["Clarificateur"]) = none := by
  refine ⟨by decide, rfl⟩

/-- Witness for C7 at a concrete catalog. -/
theorem C7_witness :
    (GenStation.get_ouvrages_procede "p"
        (c7_catalog [("Dégrillage", J.s "en_service")] ["Clarificateur"])).map Prod.fst
      = ["Clarificateur"] :=
  (C7_stage_shapes [("Dégrillage", J.s "en_service")] ["Clarificateur"]
      (by decide) (by decide)).1
